import Mathlib

set_option maxHeartbeats 1000000

/-! Verification development for the mcp-kubernetes tool gateway.

The Go sources embedded here are pkg/tools/handler.go (CreateToolHandler and
CreateToolHandlerWithName), pkg/config/config.go (ConfigData, NewConfig,
ParseFlags, InitializeTelemetry) and pkg/telemetry/service.go (Service and
TrackToolInvocation).  The pkg/security package is not part of the available
sources; the definitions that stand for it are modelled from the spec and say
so in their doc comments.  Go panics are modelled as the Except.error branch
of the embedding, so a handler that returns Except.ok models a Go function
that returned normally. -/

/-- A dynamic Go value held in an untyped arguments map (an interface value):
a string, a boolean, or any other value carrying only its type tag. -/
inductive GoVal where
  | vStr (s : String)
  | vBool (b : Bool)
  | vOther (tag : String)
deriving DecidableEq, Repr

/-- A Go map[string]interface value: either the nil map or a concrete
association list of entries with unique keys. -/
inductive GoMap where
  | nilMap
  | entries (l : List (String × GoVal))
deriving DecidableEq, Repr

/-- Replace the binding for a key in an association list, or append it at the
end when the key is absent: the effect of a Go map assignment on the entries. -/
def updateAssoc : List (String × GoVal) → String → GoVal → List (String × GoVal)
  | [], k, v => [(k, v)]
  | (k0, v0) :: rest, k, v =>
      if k0 = k then (k, v) :: rest else (k0, v0) :: updateAssoc rest k v

/-- Reading a key from a Go map; reading from the nil map yields nothing
(the zero value in Go), which is well defined and does not panic. -/
def GoMap.lookup : GoMap → String → Option GoVal
  | .nilMap, _ => none
  | .entries l, k => (l.find? (fun p => p.1 == k)).map (fun p => p.2)

/-- Writing a key into a Go map.  Assignment into the nil map panics in Go,
modelled as the error branch carrying the Go runtime panic message. -/
def GoMap.set : GoMap → String → GoVal → Except String GoMap
  | .nilMap, _, _ => Except.error "assignment to entry in nil map"
  | .entries l, k, v => Except.ok (GoMap.entries (updateAssoc l k v))

/-- The comma-ok string type assertion on a map entry, as in
operation, _ := args["operation"].(string): a missing key or a non-string
value yields the empty string. -/
def getStringArg (m : GoMap) (k : String) : String :=
  match m.lookup k with
  | some (GoVal.vStr s) => s
  | _ => ""

/-- The three-tier permission lattice of the Access Policy Model. -/
inductive AccessLevel where
  | readOnly
  | readWrite
  | admin
deriving DecidableEq, Repr

/-- The position of a level in the total order ReadOnly < ReadWrite < Admin. -/
def AccessLevel.rank : AccessLevel → Nat
  | .readOnly => 0
  | .readWrite => 1
  | .admin => 2

/-- The typed failures of the security layer named by the spec taxonomy. -/
inductive SecurityError where
  | accessDenied
  | namespaceNotAllowed
  | toolNotEnabled
deriving DecidableEq, Repr

/-- Modelled from the spec: the SecurityConfig of pkg/security, which is not
under src/.  It carries the granted access level and the namespace allow-list
(an empty list meaning every namespace is allowed). -/
structure SecurityConfig where
  accessLevel : AccessLevel
  allowedNamespaces : List String
deriving DecidableEq, Repr

/-- Modelled from the spec: NewSecurityConfig of pkg/security is not under
src/; the default security configuration grants the readonly tier and an empty
namespace allow-list (empty = all namespaces allowed). -/
def NewSecurityConfig : SecurityConfig :=
  { accessLevel := AccessLevel.readOnly, allowedNamespaces := [] }

/-- Modelled from the spec: SetAllowedNamespaces of pkg/security is not under
src/; the configuration surface describes the allowed namespaces as a
comma-delimited list stored into the security configuration. -/
def SetAllowedNamespaces (nsSpec : String) (sc : SecurityConfig) : SecurityConfig :=
  { sc with allowedNamespaces := nsSpec.splitOn "," }

/-- Modelled from the spec: Check of the Access Policy Model (pkg/security is
not under src/): permit exactly when the requested level reaches the required
tier in ReadOnly < ReadWrite < Admin, otherwise fail with AccessDenied. -/
def accessCheck : AccessLevel → AccessLevel → Except SecurityError Unit
  | .readOnly, .readOnly => Except.ok ()
  | .readOnly, .readWrite => Except.error SecurityError.accessDenied
  | .readOnly, .admin => Except.error SecurityError.accessDenied
  | .readWrite, .readOnly => Except.ok ()
  | .readWrite, .readWrite => Except.ok ()
  | .readWrite, .admin => Except.error SecurityError.accessDenied
  | .admin, _ => Except.ok ()

/-- Modelled from the spec: the Namespace Scope Guard Check (pkg/security is
not under src/).  With an empty allow-list every namespace, including an
unspecified one, is permitted; a namespace outside a non-empty allow-list
fails with NamespaceNotAllowed.  The spec leaves the policy for an unspecified
namespace under a non-empty allow-list open; here it is rejected as ambiguous. -/
def namespaceCheck (requested : Option String) (allowed : List String) :
    Except SecurityError Unit :=
  if allowed.isEmpty then Except.ok ()
  else
    match requested with
    | some ns =>
        if allowed.contains ns then Except.ok ()
        else Except.error SecurityError.namespaceNotAllowed
    | none => Except.error SecurityError.namespaceNotAllowed

/-- ConfigData of pkg/config/config.go.  Go nil-able pointers and maps are
modelled with Option; the telemetry service field only matters through its
nil-ness to the handlers, so it is Option Unit. -/
structure ConfigData where
  additionalTools : Option (List (String × Bool))
  timeout : Int
  securityConfig : Option SecurityConfig
  transport : String
  host : String
  port : Int
  accessLevel : String
  allowNamespaces : String
  otlpEndpoint : String
  telemetryService : Option Unit
deriving DecidableEq, Repr

/-- NewConfig of pkg/config/config.go: the struct literal sets AdditionalTools
to an empty non-nil map, Timeout 60, a fresh SecurityConfig, transport stdio,
port 8000, access level readonly and an empty namespace list; the remaining
fields keep their Go zero values. -/
def NewConfig : ConfigData :=
  { additionalTools := some []
    timeout := 60
    securityConfig := some NewSecurityConfig
    transport := "stdio"
    host := ""
    port := 8000
    accessLevel := "readonly"
    allowNamespaces := ""
    otlpEndpoint := ""
    telemetryService := none }

/-- The resolved command-line flag values seen by ParseFlags after
flag.Parse: each field holds the given value or the registered default. -/
structure FlagValues where
  transport : String
  host : String
  port : Int
  timeout : Int
  additionalTools : String
  accessLevel : String
  allowNamespaces : String
  otlpEndpoint : String
deriving DecidableEq, Repr

/-- Set one tool to true in the AdditionalTools map entries, as the Go map
assignment cfg.AdditionalTools[tool] = true does. -/
def setToolTrue : List (String × Bool) → String → List (String × Bool)
  | [], k => [(k, true)]
  | (k0, v0) :: rest, k =>
      if k0 = k then (k, true) :: rest else (k0, v0) :: setToolTrue rest k

/-- The namespace step of ParseFlags: SetAllowedNamespaces is called only
when the allow-namespaces value is non-empty, leaving the security
configuration untouched otherwise. -/
def applyNamespaces (cfg : ConfigData) : ConfigData :=
  if cfg.allowNamespaces = "" then cfg
  else { cfg with
    securityConfig := cfg.securityConfig.map (SetAllowedNamespaces cfg.allowNamespaces) }

/-- The additional-tools flag value split on commas, each entry trimmed, with
empty entries skipped, as the ParseFlags loop does. -/
def toolsList (s : String) : List String :=
  ((s.splitOn ",").map (fun t => t.trim)).filter (fun t => t != "")

/-- The tail of ParseFlags after the access-level switch: the namespace step,
then writing each listed tool into the AdditionalTools map (a write into a
nil map would panic, modelled as the error branch; with no listed tools the
loop performs no write). -/
def afterLevel (fv : FlagValues) (cfg : ConfigData) : Except String ConfigData :=
  let cfg2 := applyNamespaces cfg
  if (toolsList fv.additionalTools).isEmpty then Except.ok cfg2
  else
    match cfg2.additionalTools with
    | none => Except.error "assignment to entry in nil map"
    | some m =>
        Except.ok { cfg2 with
          additionalTools := some ((toolsList fv.additionalTools).foldl setToolTrue m) }

/-- ParseFlags of pkg/config/config.go, as a function of the resolved flag
values: store every flag value into the configuration, then switch on the
access-level string — exactly readonly, readwrite or admin set the
corresponding security tier and anything else returns the invalid-access-level
error — then handle namespaces and additional tools.  Dereferencing a nil
SecurityConfig would panic, modelled as the error branch. -/
def ParseFlags (fv : FlagValues) (cfg0 : ConfigData) : Except String ConfigData :=
  let cfg := { cfg0 with
    transport := fv.transport
    host := fv.host
    port := fv.port
    timeout := fv.timeout
    accessLevel := fv.accessLevel
    allowNamespaces := fv.allowNamespaces
    otlpEndpoint := fv.otlpEndpoint }
  match cfg.securityConfig with
  | none => Except.error "invalid memory address or nil pointer dereference"
  | some sc =>
    if cfg.accessLevel = "readonly" then
      afterLevel fv { cfg with
        securityConfig := some { sc with accessLevel := AccessLevel.readOnly } }
    else if cfg.accessLevel = "readwrite" then
      afterLevel fv { cfg with
        securityConfig := some { sc with accessLevel := AccessLevel.readWrite } }
    else if cfg.accessLevel = "admin" then
      afterLevel fv { cfg with
        securityConfig := some { sc with accessLevel := AccessLevel.admin } }
    else
      Except.error ("invalid access level " ++ cfg.accessLevel ++
        ". Valid values are: readonly, readwrite, admin")

/-- The arguments field of an inbound call: either a Go map of the expected
type (possibly the nil map) or a value of some other dynamic type, carrying
the type tag the %T verb would print. -/
inductive ArgumentsValue where
  | argsMap (m : GoMap)
  | notMap (typeName : String)
deriving DecidableEq, Repr

/-- The parts of mcp.CallToolRequest the handlers read: req.Params.Name and
req.Params.Arguments. -/
structure CallToolRequest where
  name : String
  arguments : ArgumentsValue
deriving DecidableEq, Repr

/-- An mcp.CallToolResult as produced by the handlers: either
NewToolResultError or NewToolResultText, both non-nil. -/
inductive CallToolResult where
  | errorResult (text : String)
  | textResult (text : String)
deriving DecidableEq, Repr

/-- One TrackToolInvocation call observed by the telemetry sink:
tool name, operation, success flag. -/
abbrev TelemetryCall := String × String × Bool

/-- The observable outcome of one handler invocation that returned normally:
the returned result pointer, the returned Go error, the TrackToolInvocation
calls made on the sink, and the argument maps passed to the executor. -/
structure HandlerResult where
  result : Option CallToolResult
  err : Option String
  telemetry : List TelemetryCall
  execCalls : List GoMap
deriving DecidableEq, Repr

/-- A CommandExecutor: Execute takes the arguments map and the configuration
and returns a Go (string, error) pair. -/
abbrev Executor := GoMap → ConfigData → String × Option String

/-- CreateToolHandler of pkg/tools/handler.go.  The returned closure asserts
the arguments to a string-keyed map — on failure it tracks a failed
invocation (operation empty, success false) when a sink is present and
returns an error result with a nil Go error — otherwise it runs the executor,
tracks the invocation with success exactly when the executor error is nil,
and returns either an error result with the error text or a text result. -/
def CreateToolHandler (execute : Executor) (cfg : ConfigData)
    (req : CallToolRequest) : Except String HandlerResult :=
  match req.arguments with
  | ArgumentsValue.notMap typeName =>
      Except.ok
        { result := some (CallToolResult.errorResult
            ("arguments must be a map[string]interface\x7b\x7d, got " ++ typeName))
          err := none
          telemetry :=
            match cfg.telemetryService with
            | some _ => [(req.name, "", false)]
            | none => []
          execCalls := [] }
  | ArgumentsValue.argsMap m =>
      let r := execute m cfg
      let telem : List TelemetryCall :=
        match cfg.telemetryService with
        | some _ => [(req.name, getStringArg m "operation", r.2.isNone)]
        | none => []
      match r.2 with
      | some e =>
          Except.ok { result := some (CallToolResult.errorResult e), err := none
                      telemetry := telem, execCalls := [m] }
      | none =>
          Except.ok { result := some (CallToolResult.textResult r.1), err := none
                      telemetry := telem, execCalls := [m] }

/-- CreateToolHandlerWithName of pkg/tools/handler.go.  Identical to
CreateToolHandler except that after the successful map assertion it performs
the Go map assignment args["_tool_name"] = toolName (which panics on the nil
map) and reports the injected toolName, not the request name, to telemetry. -/
def CreateToolHandlerWithName (execute : Executor) (cfg : ConfigData)
    (toolName : String) (req : CallToolRequest) : Except String HandlerResult :=
  match req.arguments with
  | ArgumentsValue.notMap typeName =>
      Except.ok
        { result := some (CallToolResult.errorResult
            ("arguments must be a map[string]interface\x7b\x7d, got " ++ typeName))
          err := none
          telemetry :=
            match cfg.telemetryService with
            | some _ => [(req.name, "", false)]
            | none => []
          execCalls := [] }
  | ArgumentsValue.argsMap m =>
      match m.set "_tool_name" (GoVal.vStr toolName) with
      | Except.error p => Except.error p
      | Except.ok args =>
          let r := execute args cfg
          let telem : List TelemetryCall :=
            match cfg.telemetryService with
            | some _ => [(toolName, getStringArg args "operation", r.2.isNone)]
            | none => []
          match r.2 with
          | some e =>
              Except.ok { result := some (CallToolResult.errorResult e), err := none
                          telemetry := telem, execCalls := [args] }
          | none =>
              Except.ok { result := some (CallToolResult.textResult r.1), err := none
                          telemetry := telem, execCalls := [args] }

/-- The telemetry configuration read by the service; HasOTLP holds exactly
when the OTLP endpoint is non-empty and HasApplicationInsights exactly when
telemetry is enabled and an instrumentation key is present, as the telemetry
config tests in src pin down. -/
structure TelemetryConfig where
  serviceName : String
  serviceVersion : String
  enabled : Bool
  otlpEndpoint : String
  instrumentationKey : String
  deviceID : String
deriving DecidableEq, Repr

/-- HasOTLP of the telemetry configuration. -/
def TelemetryConfig.hasOTLP (c : TelemetryConfig) : Bool :=
  c.otlpEndpoint != ""

/-- HasApplicationInsights of the telemetry configuration. -/
def TelemetryConfig.hasApplicationInsights (c : TelemetryConfig) : Bool :=
  c.enabled && (c.instrumentationKey != "")

/-- One event emitted by the telemetry service to a backend. -/
inductive TelemetryEvent where
  | otlpSpan (toolName operation : String) (success : Bool)
  | appInsightsTrace (toolName operation : String) (success : Bool)
deriving DecidableEq, Repr

/-- The telemetry Service of pkg/telemetry/service.go: its configuration,
the nil-ness of the tracer and of the Application Insights client, and the
isInitialized flag. -/
structure Service where
  config : TelemetryConfig
  tracerNonNil : Bool
  appInsightsNonNil : Bool
  isInitialized : Bool
deriving DecidableEq, Repr

/-- NewService of pkg/telemetry/service.go: stores the configuration and
leaves the service uninitialized with nil tracer and client. -/
def NewService (c : TelemetryConfig) : Service :=
  { config := c, tracerNonNil := false, appInsightsNonNil := false
    isInitialized := false }

/-- TrackToolInvocation of pkg/telemetry/service.go, observed through the
events it emits: an uninitialized service returns at once; otherwise a span
goes to OTLP when configured with a non-nil tracer and a trace goes to
Application Insights when configured with a non-nil client. -/
def Service.TrackToolInvocation (s : Service) (toolName operation : String)
    (success : Bool) : List TelemetryEvent :=
  if !s.isInitialized then []
  else
    (if s.config.hasOTLP && s.tracerNonNil then
      [TelemetryEvent.otlpSpan toolName operation success]
    else []) ++
    (if s.config.hasApplicationInsights && s.appInsightsNonNil then
      [TelemetryEvent.appInsightsTrace toolName operation success]
    else [])

/-- What the handler hands back to the protocol adapter: the Go return pair
(result pointer, error), or the panic when the handler did not return. -/
def responseOf (r : Except String HandlerResult) :
    Except String (Option CallToolResult × Option String) :=
  match r with
  | Except.error e => Except.error e
  | Except.ok o => Except.ok (o.result, o.err)

/-- The TrackToolInvocation calls a run made on the sink; a run that panicked
made none beyond those already in its prefix, which the embedding keeps empty. -/
def telemetryOf (r : Except String HandlerResult) : List TelemetryCall :=
  match r with
  | Except.error _ => []
  | Except.ok o => o.telemetry

/-- The tool names of the telemetry calls a run made. -/
def telemetryNames (r : Except String HandlerResult) : List String :=
  (telemetryOf r).map (fun t => t.1)

/-- The argument maps a run passed to the executor. -/
def execCallsOf (r : Except String HandlerResult) : List GoMap :=
  match r with
  | Except.error _ => []
  | Except.ok o => o.execCalls

/-- The result pointer of a run that returned, if any. -/
def resultOf (r : Except String HandlerResult) : Option CallToolResult :=
  match r with
  | Except.error _ => none
  | Except.ok o => o.result

/-- Whether a returned result pointer is an error-typed tool result. -/
def isErrorResult : Option CallToolResult → Bool
  | some (CallToolResult.errorResult _) => true
  | _ => false

/-- The access level recorded in the security configuration of a ParseFlags
outcome, when it returned one. -/
def levelOf (r : Except String ConfigData) : Option AccessLevel :=
  match r with
  | Except.error _ => none
  | Except.ok c => c.securityConfig.map (fun sc => sc.accessLevel)

/-- The namespace allow-list recorded in the security configuration of a
ParseFlags outcome, when it returned one. -/
def nsOf (r : Except String ConfigData) : Option (List String) :=
  match r with
  | Except.error _ => none
  | Except.ok c => c.securityConfig.map (fun sc => sc.allowedNamespaces)

/-- The access-level mapping exactly as the claim states it: the three
lowercase strings and nothing else are valid, each naming its tier. -/
def specAccessLevelMap (s : String) : Option AccessLevel :=
  if s = "readonly" then some AccessLevel.readOnly
  else if s = "readwrite" then some AccessLevel.readWrite
  else if s = "admin" then some AccessLevel.admin
  else none

/-- An executor that always succeeds with a fixed output. -/
def execConst (s : String) : Executor := fun _ _ => (s, none)

/-- An executor that always fails with a fixed error message. -/
def execFail (msg : String) : Executor := fun _ _ => ("", some msg)

/-- A fresh configuration with a telemetry sink attached. -/
def cfgWithSink : ConfigData := { NewConfig with telemetryService := some () }

/-- A request whose Arguments field is a nil map of the expected type
map[string]interface: the type assertion in the handlers succeeds on it. -/
def reqNilMap : CallToolRequest :=
  { name := "kubectl", arguments := ArgumentsValue.argsMap GoMap.nilMap }

theorem applyNamespaces_tools (cfg : ConfigData) :
    (applyNamespaces cfg).additionalTools = cfg.additionalTools := by
  unfold applyNamespaces
  split <;> rfl

theorem applyNamespaces_level (cfg : ConfigData) :
    (applyNamespaces cfg).securityConfig.map (fun sc => sc.accessLevel)
      = cfg.securityConfig.map (fun sc => sc.accessLevel) := by
  unfold applyNamespaces
  split
  · rfl
  · cases cfg.securityConfig <;> rfl

theorem applyNamespaces_id (cfg : ConfigData) (h : cfg.allowNamespaces = "") :
    applyNamespaces cfg = cfg := by
  unfold applyNamespaces
  simp [h]

theorem afterLevel_ok (fv : FlagValues) (cfg : ConfigData) (m : List (String × Bool))
    (h : cfg.additionalTools = some m) :
    ∃ c, afterLevel fv cfg = Except.ok c
      ∧ c.securityConfig = (applyNamespaces cfg).securityConfig := by
  have h2 : (applyNamespaces cfg).additionalTools = some m := by
    rw [applyNamespaces_tools]; exact h
  unfold afterLevel
  cases ht : (toolsList fv.additionalTools).isEmpty
  · refine ⟨{ applyNamespaces cfg with
      additionalTools := some ((toolsList fv.additionalTools).foldl setToolTrue m) }, ?_, rfl⟩
    simp [ht, h2]
  · exact ⟨applyNamespaces cfg, by simp [ht], rfl⟩

/-- Claim C4: for all pairs of a requested and a required access level, Check
permits the operation exactly when the requested level is greater than or
equal to the required level under ReadOnly < ReadWrite < Admin, and fails
with AccessDenied otherwise. -/
theorem accessCheck_spec :
    ∀ requested required : AccessLevel,
      accessCheck requested required =
        (if required.rank ≤ requested.rank then Except.ok ()
         else Except.error SecurityError.accessDenied) := by
  intro a b
  cases a <;> cases b <;> rfl

/-- Claim C8: a freshly created configuration carries the documented
defaults: Timeout 60 seconds, access level readonly, transport stdio, port
8000, a non-nil empty AdditionalTools map and a non-nil SecurityConfig. -/
theorem newConfig_defaults :
    NewConfig.timeout = 60 ∧ NewConfig.accessLevel = "readonly"
      ∧ NewConfig.transport = "stdio" ∧ NewConfig.port = 8000
      ∧ NewConfig.additionalTools = some []
      ∧ NewConfig.securityConfig.isSome = true :=
  ⟨rfl, rfl, rfl, rfl, rfl, rfl⟩

/-- Claim C1 (code bug): the claim says TrackToolInvocation is called exactly
once per request whatever the outcome, but on a request whose Arguments field
is a nil map of the expected type the handler from CreateToolHandlerWithName
panics on the _tool_name map assignment before the telemetry call, so the
sink records no invocation at all for that request. -/
theorem withName_nilMap_skips_telemetry :
    telemetryOf (CreateToolHandlerWithName (execConst "pod-list") cfgWithSink
      "kubectl" reqNilMap) = [] := rfl

/-- Claim C2 (code bug): the claim says the handler always returns a nil Go
error and a non-nil result, but on a request whose Arguments field is a nil
map of the expected type the handler from CreateToolHandlerWithName never
returns: it panics, so no (result, nil) pair is produced. -/
theorem withName_nilMap_no_return :
    (CreateToolHandlerWithName (execFail "mock execution error") cfgWithSink
      "helm" reqNilMap).toOption = none := rfl

/-- Claim C3 (code bug): the claim says the handlers never panic and that the
_tool_name write is safe for every accepted arguments value, but the write is
a Go assignment into the asserted map, and for a request whose Arguments
field is a nil map of the expected type the type assertion accepts the value
and the assignment panics with the Go runtime nil-map error. -/
theorem withName_nilMap_panics :
    CreateToolHandlerWithName (execConst "ok") cfgWithSink "cilium" reqNilMap
      = Except.error "assignment to entry in nil map" := rfl

/-- Claim C10: on a request whose Arguments field is not a string-keyed map,
both handlers return an error-typed result without invoking the executor, and
the telemetry record carries the request name, an empty operation and a false
success flag when a sink is present. -/
theorem notMap_rejected_without_exec (e : Executor) (cfg : ConfigData)
    (nm ty tn : String) :
    (isErrorResult (resultOf (CreateToolHandler e
          { cfg with telemetryService := some () }
          { name := nm, arguments := ArgumentsValue.notMap ty })) = true
      ∧ execCallsOf (CreateToolHandler e { cfg with telemetryService := some () }
          { name := nm, arguments := ArgumentsValue.notMap ty }) = []
      ∧ telemetryOf (CreateToolHandler e { cfg with telemetryService := some () }
          { name := nm, arguments := ArgumentsValue.notMap ty }) = [(nm, "", false)])
    ∧ (isErrorResult (resultOf (CreateToolHandlerWithName e
          { cfg with telemetryService := some () } tn
          { name := nm, arguments := ArgumentsValue.notMap ty })) = true
      ∧ execCallsOf (CreateToolHandlerWithName e
          { cfg with telemetryService := some () } tn
          { name := nm, arguments := ArgumentsValue.notMap ty }) = []
      ∧ telemetryOf (CreateToolHandlerWithName e
          { cfg with telemetryService := some () } tn
          { name := nm, arguments := ArgumentsValue.notMap ty }) = [(nm, "", false)]) :=
  ⟨⟨rfl, rfl, rfl⟩, ⟨rfl, rfl, rfl⟩⟩

/-- Claim C9: on a request whose arguments are a (non-nil) map, the handler
from CreateToolHandlerWithName reports exactly one telemetry call whose tool
name is the injected toolName, whatever the request's own Name field, and the
executor receives the arguments map extended with the _tool_name key bound to
that injected name. -/
theorem withName_injects_toolName (e : Executor) (cfg : ConfigData)
    (tn reqName : String) (l : List (String × GoVal)) :
    telemetryNames (CreateToolHandlerWithName e
        { cfg with telemetryService := some () } tn
        { name := reqName, arguments := ArgumentsValue.argsMap (GoMap.entries l) })
      = [tn]
    ∧ execCallsOf (CreateToolHandlerWithName e
        { cfg with telemetryService := some () } tn
        { name := reqName, arguments := ArgumentsValue.argsMap (GoMap.entries l) })
      = [GoMap.entries (updateAssoc l "_tool_name" (GoVal.vStr tn))] := by
  constructor <;>
  · simp only [CreateToolHandlerWithName, GoMap.set]
    cases hr : (e (GoMap.entries (updateAssoc l "_tool_name" (GoVal.vStr tn)))
        { cfg with telemetryService := some () }).2 <;>
      simp [telemetryNames, telemetryOf, execCallsOf, hr]

/-- Claim C6: the telemetry sink never changes or fails the request — for a
fixed request and an executor whose behaviour does not depend on the sink
field, the (result, error) pair the handler returns with a nil
TelemetryService equals the pair returned with a sink present, for both
handler constructors; and TrackToolInvocation on a freshly created,
uninitialized telemetry Service emits nothing and cannot fail. -/
theorem telemetry_noninterference :
    (∀ (e : Executor) (cfg : ConfigData) (req : CallToolRequest),
      (∀ m, e m { cfg with telemetryService := none }
          = e m { cfg with telemetryService := some () }) →
      responseOf (CreateToolHandler e { cfg with telemetryService := none } req)
        = responseOf (CreateToolHandler e { cfg with telemetryService := some () } req))
    ∧ (∀ (e : Executor) (cfg : ConfigData) (tn : String) (req : CallToolRequest),
      (∀ m, e m { cfg with telemetryService := none }
          = e m { cfg with telemetryService := some () }) →
      responseOf (CreateToolHandlerWithName e
          { cfg with telemetryService := none } tn req)
        = responseOf (CreateToolHandlerWithName e
          { cfg with telemetryService := some () } tn req))
    ∧ (∀ (c : TelemetryConfig) (toolName operation : String) (success : Bool),
      Service.TrackToolInvocation (NewService c) toolName operation success = []) := by
  refine ⟨?_, ?_, ?_⟩
  · intro e cfg req hexec
    rcases req with ⟨nm, args⟩
    cases args with
    | notMap ty => rfl
    | argsMap m =>
        simp only [CreateToolHandler, responseOf, hexec m]
        cases hr : (e m { cfg with telemetryService := some () }).2 <;> simp [hr]
  · intro e cfg tn req hexec
    rcases req with ⟨nm, args⟩
    cases args with
    | notMap ty => rfl
    | argsMap m =>
        cases m with
        | nilMap => rfl
        | entries l =>
            simp only [CreateToolHandlerWithName, GoMap.set, responseOf,
              hexec (GoMap.entries (updateAssoc l "_tool_name" (GoVal.vStr tn)))]
            cases hr : (e (GoMap.entries (updateAssoc l "_tool_name" (GoVal.vStr tn)))
                { cfg with telemetryService := some () }).2 <;> simp [hr]
  · intro c toolName operation success
    rfl

/-- Witness for claim C6 at a concrete executor, configuration and request:
the non-interference theorem applied to the constant executor, the fresh
configuration and the nil-map request, the executor hypothesis discharged
definitionally. -/
theorem telemetry_noninterference_witness :
    responseOf (CreateToolHandler (execConst "x")
        { NewConfig with telemetryService := none } reqNilMap)
      = responseOf (CreateToolHandler (execConst "x")
        { NewConfig with telemetryService := some () } reqNilMap) :=
  telemetry_noninterference.1 (execConst "x") NewConfig reqNilMap (fun _ => rfl)

/-- Claim C7: ParseFlags returns an error exactly when the access-level
string is not one of the three case-sensitive values readonly, readwrite,
admin (the empty string included), and on each valid value it stores the
corresponding tier into SecurityConfig.AccessLevel. -/
theorem parseFlags_accessLevel_spec (fv : FlagValues) (cfg : ConfigData)
    (sc : SecurityConfig) (tl : List (String × Bool)) :
    levelOf (ParseFlags fv
        { cfg with securityConfig := some sc, additionalTools := some tl })
      = specAccessLevelMap fv.accessLevel
    ∧ (ParseFlags fv
        { cfg with securityConfig := some sc, additionalTools := some tl }).toOption.isSome
      = (specAccessLevelMap fv.accessLevel).isSome := by
  unfold ParseFlags afterLevel applyNamespaces specAccessLevelMap
  by_cases h1 : fv.accessLevel = "readonly" <;>
  by_cases h2 : fv.accessLevel = "readwrite" <;>
  by_cases h3 : fv.accessLevel = "admin" <;>
  by_cases hn : fv.allowNamespaces = "" <;>
  cases ht : (toolsList fv.additionalTools).isEmpty <;>
    simp [h1, h2, h3, hn, ht, levelOf, SetAllowedNamespaces, Except.toOption]

/-- Claim C5: with an empty namespace allow-list the Namespace Scope Guard
permits every namespace, the unspecified one included; and in the
configuration layer an empty allow-namespaces flag value leaves the security
configuration's namespace allow-list exactly as it was, because
SetAllowedNamespaces is only invoked on a non-empty value. -/
theorem emptyAllowlist_unrestricted :
    (∀ requested : Option String, namespaceCheck requested [] = Except.ok ())
    ∧ ∀ (fv : FlagValues) (cfg : ConfigData) (sc : SecurityConfig)
        (tl : List (String × Bool)),
        nsOf (ParseFlags { fv with allowNamespaces := "" }
            { cfg with securityConfig := some sc, additionalTools := some tl })
          = (specAccessLevelMap fv.accessLevel).map (fun _ => sc.allowedNamespaces) := by
  constructor
  · intro requested
    rfl
  · intro fv cfg sc tl
    unfold ParseFlags afterLevel applyNamespaces specAccessLevelMap
    by_cases h1 : fv.accessLevel = "readonly" <;>
    by_cases h2 : fv.accessLevel = "readwrite" <;>
    by_cases h3 : fv.accessLevel = "admin" <;>
    cases ht : (toolsList fv.additionalTools).isEmpty <;>
      simp [h1, h2, h3, ht, nsOf]
